import Mathlib

/-!
Diagram state of the interactive Voronoi viewer (package `state`)

A shallow embedding of `state/state.go`: the `State` struct with its dirty flag
(`updated`), the mutators `SetPoints`, `AddPoint`, `SetDimensions`, the lazy
recomputation in `update` / `Render`, the extraction of render geometry from a
diagram, and the key based slice comparison `pointsEq`.

Modelling conventions

* `float64` and `float32` values are their IEEE-754 bit fields (sign, biased
  exponent, fraction).  Go's `==`, unary minus, division by the constant `2`,
  the conversion `float32(x)` and the `%f` verb of `fmt.Sprintf` are defined on
  those bit fields.
* A Go slice is a `List`; callers do not write into a backing array after handing
  the slice over.  A `nil` slice and an empty slice are both `[]`.  The one callee
  that writes into the state's slice is the diagram engine, see below.
* `map[string]bool` is a total function `String → Bool`: a missing key reads as
  the zero value `false`.
* `voronoi.ComputeDiagram` is a parameter `cd : Engine`.  The library sorts the slice
  it is handed in place (`sort.Sort(VerticesByY{sites})`), and `update` hands it the
  state's own slice: a call yields the diagram together with the contents of that
  slice when the call returns, a permutation of what went in.  The engine is taken
  to be total; a panic inside it is not modelled.  Of the library types only the
  fields read by the package are kept (`Cell.Site`, `Edge.Va`, `Edge.Vb`,
  `Diagram.Cells`, `Diagram.Edges`).
* A GL vertex buffer is represented by the vertices uploaded into it, a mesh by
  the arguments passed to `mesh.NewMesh`; buffer handles are not modelled.
-/

set_option exponentiation.threshold 4096

namespace Voronoi

/-! ## IEEE-754 values -/

/-- A `float64` as its three bit fields. -/
structure Float64 where
  sign : Bool
  expo : Fin 2048
  frac : Fin 4503599627370496
  deriving DecidableEq

/-- A `float32` as its three bit fields. -/
structure Float32 where
  sign : Bool
  expo : Fin 256
  frac : Fin 8388608
  deriving DecidableEq

/-- Round `n / d` to the nearest integer, ties to even (`d` positive). -/
def roundHalfEven (n d : Nat) : Nat :=
  let q := n / d
  let r := n % d
  if 2 * r > d then q + 1
  else if 2 * r = d then (if q % 2 = 1 then q + 1 else q)
  else q

/-- Index of the highest set bit of a positive `n`: one less than its number of binary
digits. -/
def topBit (n : Nat) : Nat := (Nat.toDigits 2 n).length - 1

namespace Float64

/-- The value with the given 64-bit pattern (`math.Float64frombits`). -/
def ofBits (b : Nat) : Float64 :=
  ⟨b / 9223372036854775808 % 2 = 1, Fin.ofNat (b / 4503599627370496 % 2048),
    Fin.ofNat (b % 4503599627370496)⟩

def isNaN (x : Float64) : Bool := x.expo.val = 2047 && x.frac.val ≠ 0

def isInf (x : Float64) : Bool := x.expo.val = 2047 && x.frac.val = 0

def isZero (x : Float64) : Bool := x.expo.val = 0 && x.frac.val = 0

/-- Integer significand `m` of a finite value `± m * 2 ^ (e - 1075)`, see `bexp`. -/
def mant (x : Float64) : Nat :=
  if x.expo.val = 0 then x.frac.val else 4503599627370496 + x.frac.val

/-- Biased binary exponent `e` of a finite value `± mant * 2 ^ (e - 1075)`. -/
def bexp (x : Float64) : Nat :=
  if x.expo.val = 0 then 1 else x.expo.val

/-- Go's `x == y` on `float64`: a NaN equals nothing, the two zeros are equal. -/
def feq (x y : Float64) : Bool :=
  !x.isNaN && !y.isNaN && (decide (x = y) || (x.isZero && y.isZero))

/-- Go's unary minus: the sign bit is flipped. -/
def neg (x : Float64) : Float64 := { x with sign := !x.sign }

/-- A key in the order of Go's `<` on the values that are not NaN: `x < y` exactly when
`ord x < ord y`; the two zeros share the key `2 ^ 63`. -/
def ord (x : Float64) : Nat :=
  let mag := x.expo.val * 4503599627370496 + x.frac.val
  if x.sign then 9223372036854775808 - mag else 9223372036854775808 + mag

/-- Go's `x / 2`: exact while the result is normal, rounded to nearest even when
the result is subnormal; infinities and zeros are returned as they are, a NaN comes
back quiet (top fraction bit set, the rest of its bits kept). -/
def half (x : Float64) : Float64 :=
  if x.expo.val = 2047 then
    if x.frac.val = 0 then x
    else { x with frac := Fin.ofNat (x.frac.val % 2251799813685248 + 2251799813685248) }
  else if 2 ≤ x.expo.val then { x with expo := Fin.ofNat (x.expo.val - 1) }
  else
    let n := roundHalfEven x.mant 2
    { x with expo := Fin.ofNat (n / 4503599627370496), frac := Fin.ofNat (n % 4503599627370496) }

/-- The decimal digits of `n`, padded with zeros on the left to `width` places. -/
def padDigits (width n : Nat) : String :=
  let s := Nat.repr n
  String.mk (List.replicate (width - s.length) '0') ++ s

/-- The number of millionths nearest to the magnitude of a finite `x`, ties to even. -/
def millionths (x : Float64) : Nat :=
  if 1075 ≤ x.bexp then x.mant * 2 ^ (x.bexp - 1075) * 1000000
  else roundHalfEven (x.mant * 1000000) (2 ^ (1075 - x.bexp))

/-- The verb `%f` of `fmt` applied to a `float64`: six digits after the point. -/
def fmtF (x : Float64) : String :=
  if x.isNaN then "NaN"
  else if x.isInf then (if x.sign then "-Inf" else "+Inf")
  else
    let n := x.millionths
    (if x.sign then "-" else "") ++ Nat.repr (n / 1000000) ++ "." ++ padDigits 6 (n % 1000000)

/-- The conversion `float32(x)`: round to nearest even on a 24-bit significand,
overflow to infinity, gradual underflow. -/
def toFloat32 (x : Float64) : Float32 :=
  if x.expo.val = 2047 then
    if x.frac.val = 0 then ⟨x.sign, Fin.ofNat 255, Fin.ofNat 0⟩
    else ⟨x.sign, Fin.ofNat 255, Fin.ofNat (x.frac.val / 536870912 % 4194304 + 4194304)⟩
  else if x.mant = 0 then ⟨x.sign, Fin.ofNat 0, Fin.ofNat 0⟩
  else
    -- leading bit: the magnitude lies in `[2 ^ (lead - 1075), 2 ^ (lead - 1074))`
    let lead := topBit x.mant + x.bexp
    -- a float32 is normal from `2 ^ (-126)` on, that is from `lead = 949`
    let q := max lead 949
    -- the last kept bit weighs `2 ^ (q - 1075 - 23)`, the last bit of `mant` weighs
    -- `2 ^ (bexp - 1075)`
    let shift := q - 23 - x.bexp
    let n := roundHalfEven x.mant (2 ^ shift)
    let bits := (if 949 ≤ lead then (lead - 949) * 8388608 + n else n)
    if 2139095040 ≤ bits then ⟨x.sign, Fin.ofNat 255, Fin.ofNat 0⟩
    else ⟨x.sign, Fin.ofNat (bits / 8388608), Fin.ofNat (bits % 8388608)⟩

end Float64

/-! ## Library types, reduced to what the package reads -/

/-- The type `voronoi.Vertex`. -/
structure Vertex where
  X : Float64
  Y : Float64
  deriving DecidableEq

/-- The type `voronoi.Cell`; only `Site` is read. -/
structure Cell where
  Site : Vertex
  deriving DecidableEq

/-- The type `voronoi.Edge`; only the coordinates of `Va` and `Vb` are read. -/
structure Edge where
  Va : Vertex
  Vb : Vertex
  deriving DecidableEq

/-- The type `voronoi.Diagram`. -/
structure Diagram where
  Cells : List Cell
  Edges : List Edge
  deriving DecidableEq

/-- The arguments of `voronoi.NewBBox(xl, xr, yt, yb)`. -/
structure BBox where
  Xl : Float64
  Xr : Float64
  Yt : Float64
  Yb : Float64
  deriving DecidableEq

/-- The type `mgl32.Vec3`. -/
structure Vec3 where
  x : Float32
  y : Float32
  z : Float32
  deriving DecidableEq

/-- The `float32` constant `0`. -/
def Float32.zero : Float32 := ⟨false, Fin.ofNat 0, Fin.ofNat 0⟩

/-- The primitive kinds passed to `mesh.NewMesh`. -/
inductive DrawMode where
  | POINTS
  | LINES
  deriving DecidableEq

/-- The type `color.NRGBA`. -/
structure NRGBA where
  R : Nat
  G : Nat
  B : Nat
  A : Nat
  deriving DecidableEq

/-- What `mesh.NewMesh` is given: the vertex buffer (as the vertices uploaded into it),
the primitive kind, the vertex count and the colour.  The other arguments are zero
values in both call sites. -/
structure Mesh where
  vertexBuffer : List Vec3
  mode : DrawMode
  count : Nat
  color : NRGBA
  deriving DecidableEq

/-- The type `model.Model`: `mesh = none` with `defaultEntity = false` is the zero value
`model.Model{}`; `defaultEntity = true` stands for `Entity: entity.Default()`. -/
structure Model where
  mesh : Option Mesh
  defaultEntity : Bool
  deriving DecidableEq

/-- A `map[string]bool`: reading a key that was never set yields `false`. -/
abbrev StringSet := String → Bool

/-- The map `make(map[string]bool)`. -/
def StringSet.make : StringSet := fun _ => false

/-- The assignment `m[k] = true`. -/
def StringSet.setTrue (m : StringSet) (k : String) : StringSet :=
  fun k2 => if k2 = k then true else m k2

/-! ## The package `state` -/

/-- The struct `State`. -/
structure State where
  w : Float64
  h : Float64
  points : List Vertex
  updated : Bool
  pointsModel : Model
  linesModel : Model
  deriving DecidableEq

/-- The key `fmt.Sprintf("%f:%f", p.X, p.Y)` used by `pointsEq`. -/
def pointKey (p : Vertex) : String :=
  p.X.fmtF ++ ":" ++ p.Y.fmtF

/-- First loop of `pointsEq`: every key of `p1` is set in the map. -/
def pointsEq.fill (m : StringSet) : List Vertex → StringSet
  | [] => m
  | p :: rest => pointsEq.fill (m.setTrue (pointKey p)) rest

/-- Second loop of `pointsEq`: `false` at the first point of `p2` whose key is not set. -/
def pointsEq.check (m : StringSet) : List Vertex → Bool
  | [] => true
  | p :: rest => if !m (pointKey p) then false else pointsEq.check m rest

/-- The function `pointsEq`. -/
def pointsEq (p1 p2 : List Vertex) : Bool :=
  if p1.length ≠ p2.length then false
  else
    let m := pointsEq.fill StringSet.make p1
    pointsEq.check m p2

/-- The method `SetPoints`. -/
def SetPoints (s : State) (points : List Vertex) : State :=
  if pointsEq points s.points then s
  else { s with points := points, updated := false }

/-- The test of the `AddPoint` loop body: `p.X == q.X && p.Y == q.Y`. -/
def sameXY (p q : Vertex) : Bool :=
  Float64.feq p.X q.X && Float64.feq p.Y q.Y

/-- The loop of `AddPoint`: `true` when it returns early on an existing point. -/
def AddPoint.found (p : Vertex) : List Vertex → Bool
  | [] => false
  | q :: rest => if sameXY p q then true else AddPoint.found p rest

/-- The method `AddPoint`. -/
def AddPoint (s : State) (p : Vertex) : State :=
  if AddPoint.found p s.points then s
  else
    let ps := s.points ++ [p]
    SetPoints s ps

/-- The method `SetDimensions`. -/
def SetDimensions (s : State) (w h : Float64) : State :=
  if Float64.feq s.w w && Float64.feq s.h h then s
  else { s with w := w, h := h, updated := false }

/-- The external `voronoi.ComputeDiagram(sites, bbox, closeCells)`: the diagram it
returns, paired with the contents of the slice `sites` when the call returns.  The
library reorders that slice in place, so the contents are a permutation of what
was handed in. -/
structure Engine where
  ComputeDiagram : List Vertex → BBox → Bool → Diagram × List Vertex
  sites_perm : ∀ sites bbox closeCells, (ComputeDiagram sites bbox closeCells).2.Perm sites

/-- The function `diagram`: the diagram returned, and the slice `sites` as the engine
leaves it. -/
def diagram (cd : Engine) (w h : Float64) (sites : List Vertex) : Diagram × List Vertex :=
  let bbox : BBox := ⟨w.neg.half, w.half, h.neg.half, h.half⟩
  cd.ComputeDiagram sites bbox true

/-- The function `vertToVec3`. -/
def vertToVec3 (v : Vertex) : Vec3 :=
  ⟨v.X.toFloat32, v.Y.toFloat32, Float32.zero⟩

/-- The function `diagramLines`: the loop appends both endpoints of each edge. -/
def diagramLines (d : Diagram) : List Vec3 :=
  d.Edges.foldl (fun vertices edge => vertices ++ [vertToVec3 edge.Va, vertToVec3 edge.Vb]) []

/-- The function `diagramPoints`: the loop appends the site of each cell. -/
def diagramPoints (d : Diagram) : List Vec3 :=
  d.Cells.foldl
    (fun vertices cell => vertices ++ [⟨cell.Site.X.toFloat32, cell.Site.Y.toFloat32, Float32.zero⟩]) []

/-- The colour `color.NRGBA{255, 255, 255, 255}`. -/
def white : NRGBA := ⟨255, 255, 255, 255⟩

/-- The function `linesModel`. -/
def linesModel (lines : List Vec3) : Model :=
  if lines.length = 0 then ⟨none, false⟩
  else ⟨some ⟨lines, DrawMode.LINES, lines.length, white⟩, true⟩

/-- The function `pointCloudModel`. -/
def pointCloudModel (points : List Vec3) : Model :=
  if points.length = 0 then ⟨none, false⟩
  else ⟨some ⟨points, DrawMode.POINTS, points.length, white⟩, true⟩

/-- The method `update`.  The call `diagram(s.w, s.h, s.points)` passes the state's own
slice, so `s.points` reads afterwards what the engine left in it. -/
def update (cd : Engine) (s : State) : State :=
  let r := diagram cd s.w s.h s.points
  let d := r.1
  { s with
    points := r.2
    pointsModel := pointCloudModel (diagramPoints d)
    linesModel := linesModel (diagramLines d)
    updated := true }

/-- The function `New`. -/
def New (cd : Engine) (w h : Float64) (points : List Vertex) : State :=
  update cd ⟨w, h, points, false, ⟨none, false⟩, ⟨none, false⟩⟩

/-- The method `Render`: the state after the call, and the models drawn, in order. -/
def Render (cd : Engine) (s : State) : State × List Model :=
  let s1 := if !s.updated then update cd s else s
  (s1, [s1.pointsModel, s1.linesModel])

/-- A call of one of the exported methods. -/
inductive Call where
  | setPoints (points : List Vertex)
  | addPoint (p : Vertex)
  | setDimensions (w h : Float64)
  | render
  deriving DecidableEq

/-- The state after one call. -/
def Call.apply (cd : Engine) (s : State) : Call → State
  | .setPoints points => SetPoints s points
  | .addPoint p => AddPoint s p
  | .setDimensions w h => SetDimensions s w h
  | .render => (Render cd s).1

/-- The state after a sequence of calls, first call first. -/
def runCalls (cd : Engine) (s : State) (calls : List Call) : State :=
  calls.foldl (Call.apply cd) s

/-! ## Concrete values used to exercise the definitions -/

/-- The `float64` value `0`. -/
def f0 : Float64 := Float64.ofBits 0x0000000000000000

/-- The `float64` value `1`. -/
def f1 : Float64 := Float64.ofBits 0x3FF0000000000000

/-- The `float64` value `1 + 2 ^ (-30)`, about `1.0000000009313226`. -/
def f1up : Float64 := Float64.ofBits 0x3FF0000000400000

/-- The `float64` value `100`. -/
def f100 : Float64 := Float64.ofBits 0x4059000000000000

/-- The `float64` value `600`. -/
def f600 : Float64 := Float64.ofBits 0x4082C00000000000

/-- The `float64` value `800`. -/
def f800 : Float64 := Float64.ofBits 0x4089000000000000

/-- The site `(0, 0)`. -/
def siteO : Vertex := ⟨f0, f0⟩

/-- The site `(100, 0)`. -/
def siteA : Vertex := ⟨f100, f0⟩

/-- The site `(0, 100)`. -/
def siteB : Vertex := ⟨f0, f100⟩

/-- The site `(1, 0)`. -/
def siteP : Vertex := ⟨f1, f0⟩

/-- The site `(1 + 2 ^ (-30), 0)`. -/
def siteQ : Vertex := ⟨f1up, f0⟩

/-- The site `(0, 600)`. -/
def siteC : Vertex := ⟨f0, f600⟩

/-- The sites in ascending order of `Y`, sites of equal `Y` in the order they had: what
the library's `sort.Sort(VerticesByY{sites})` leaves in the slice. -/
def sortByY (sites : List Vertex) : List Vertex :=
  List.insertionSort (fun a b => a.Y.ord ≤ b.Y.ord) sites

/-- A stand-in for `voronoi.ComputeDiagram`: like the library it first sorts the slice
by `Y` in place; it then reports one cell per site, in the sorted order, and one edge
along the diagonal of the bounding box when there is at least one site. -/
def sortingEngine : Engine where
  ComputeDiagram sites bbox _closeCells :=
    (⟨(sortByY sites).map Cell.mk,
        if sites.length = 0 then [] else [⟨⟨bbox.Xl, bbox.Yt⟩, ⟨bbox.Xr, bbox.Yb⟩⟩]⟩,
      sortByY sites)
  sites_perm := fun sites _ _ => List.perm_insertionSort _ sites

/-- A clean 800 by 600 state holding the three sites `(0,0)`, `(100,0)`, `(0,100)`. -/
def sampleState : State := New sortingEngine f800 f600 [siteO, siteA, siteB]

/-! ## Auxiliary facts -/

theorem feq_comm (x y : Float64) : Float64.feq x y = Float64.feq y x := by
  unfold Float64.feq
  by_cases h : x = y
  · subst h; rfl
  · have h2 : ¬ y = x := fun e => h e.symm
    simp only [h, h2, decide_False, Bool.false_or]
    cases x.isNaN <;> cases y.isNaN <;> cases x.isZero <;> cases y.isZero <;> rfl

theorem sameXY_comm (p q : Vertex) : sameXY p q = sameXY q p := by
  unfold sameXY
  rw [feq_comm p.X q.X, feq_comm p.Y q.Y]

theorem found_eq_true_iff (p : Vertex) (l : List Vertex) :
    AddPoint.found p l = true ↔ ∃ q ∈ l, sameXY p q = true := by
  induction l with
  | nil => simp [AddPoint.found]
  | cons q rest ih =>
    unfold AddPoint.found
    by_cases hq : sameXY p q = true
    · simp [hq]
    · simp [hq, ih]

theorem found_eq_false_iff (p : Vertex) (l : List Vertex) :
    AddPoint.found p l = false ↔ ∀ q ∈ l, sameXY p q = false := by
  rw [← Bool.not_eq_true, found_eq_true_iff]
  simp

theorem fill_apply (m : StringSet) (l : List Vertex) (k : String) :
    pointsEq.fill m l k = true ↔ m k = true ∨ ∃ p ∈ l, pointKey p = k := by
  induction l generalizing m with
  | nil => simp [pointsEq.fill]
  | cons p rest ih =>
    unfold pointsEq.fill
    rw [ih]
    unfold StringSet.setTrue
    by_cases hk : k = pointKey p
    · subst hk; simp
    · have hk2 : ¬ pointKey p = k := fun e => hk e.symm
      simp [hk, hk2]

theorem check_eq_true_iff (m : StringSet) (l : List Vertex) :
    pointsEq.check m l = true ↔ ∀ p ∈ l, m (pointKey p) = true := by
  induction l with
  | nil => simp [pointsEq.check]
  | cons p rest ih =>
    unfold pointsEq.check
    by_cases hp : m (pointKey p) = true
    · simp [hp, ih]
    · simp [hp]

/-- What `pointsEq` computes: equal lengths, and every key of `p2` is a key of `p1`. -/
theorem pointsEq_eq_true_iff (p1 p2 : List Vertex) :
    pointsEq p1 p2 = true ↔
      p1.length = p2.length ∧ ∀ p ∈ p2, ∃ q ∈ p1, pointKey q = pointKey p := by
  unfold pointsEq
  by_cases hl : p1.length = p2.length
  · simp only [hl, ne_eq, not_true_eq_false, if_false, true_and]
    rw [check_eq_true_iff]
    constructor
    · intro h p hp
      have := (fill_apply StringSet.make p1 (pointKey p)).1 (h p hp)
      simpa [StringSet.make] using this
    · intro h p hp
      exact (fill_apply StringSet.make p1 (pointKey p)).2 (Or.inr (h p hp))
  · simp [hl]

theorem SetPoints_of_pointsEq (s : State) (points : List Vertex)
    (h : pointsEq points s.points = true) : SetPoints s points = s := by
  simp [SetPoints, h]

theorem SetPoints_of_not_pointsEq (s : State) (points : List Vertex)
    (h : pointsEq points s.points = false) :
    SetPoints s points = { s with points := points, updated := false } := by
  simp [SetPoints, h]

theorem pointsEq_of_length_ne (p1 p2 : List Vertex) (h : p1.length ≠ p2.length) :
    pointsEq p1 p2 = false := by
  simp [pointsEq, h]

/-! ## The float model on known values -/

/-- The `%f` rendering of `0.1`, `1/128` and `3/128` (ties go to the even digit), of
`1 + 2 ^ (-30)`, of the negative zero, of an infinity and of a NaN. -/
theorem fmtF_known_values :
    Float64.fmtF (Float64.ofBits 0x3FB999999999999A) = "0.100000" ∧
      Float64.fmtF (Float64.ofBits 0x3F80000000000000) = "0.007812" ∧
      Float64.fmtF (Float64.ofBits 0x3F98000000000000) = "0.023438" ∧
      Float64.fmtF f1up = "1.000000" ∧
      Float64.fmtF f800 = "800.000000" ∧
      Float64.fmtF (Float64.ofBits 0x8000000000000000) = "-0.000000" ∧
      Float64.fmtF (Float64.ofBits 0x7FF0000000000000) = "+Inf" ∧
      Float64.fmtF (Float64.ofBits 0x7FF8000000000001) = "NaN" := by
  refine ⟨by decide, by decide, by decide, by decide, by decide, by decide, by decide,
    by decide⟩

/-- Go's `==` on the two zeros, on a NaN and itself, and on `1` and `1 + 2 ^ (-30)`. -/
theorem feq_known_values :
    Float64.feq f0 (Float64.ofBits 0x8000000000000000) = true ∧
      Float64.feq (Float64.ofBits 0x7FF8000000000001) (Float64.ofBits 0x7FF8000000000001)
        = false ∧
      Float64.feq f1 f1 = true ∧ Float64.feq f1 f1up = false := by
  refine ⟨by decide, by decide, by decide, by decide⟩

/-- The halves of `800`, of the smallest normal value plus three units (a subnormal,
rounded), of the smallest subnormal (a tie, rounded to zero), of a signalling NaN (it
comes back quiet) and of `+Inf`; the negation of `800`. -/
theorem half_known_values :
    Float64.half f800 = Float64.ofBits 0x4079000000000000 ∧
      Float64.half (Float64.ofBits 0x0010000000000003) = Float64.ofBits 0x0008000000000002 ∧
      Float64.half (Float64.ofBits 0x0000000000000001) = f0 ∧
      Float64.half (Float64.ofBits 0x7FF0000000000001) = Float64.ofBits 0x7FF8000000000001 ∧
      Float64.half (Float64.ofBits 0x7FF0000000000000) = Float64.ofBits 0x7FF0000000000000 ∧
      Float64.neg f800 = Float64.ofBits 0xC089000000000000 := by
  refine ⟨by decide, by decide, by decide, by decide, by decide, by decide⟩

/-- The conversions `float32(0.1) = 0x3DCCCCCD`, `float32(math.Pi) = 0x40490FDB`,
`float32(100) = 0x42C80000`, and the overflow of `math.MaxFloat64` to `+Inf`. -/
theorem toFloat32_known_values :
    Float64.toFloat32 (Float64.ofBits 0x3FB999999999999A)
        = ⟨false, Fin.ofNat 0x7B, Fin.ofNat 0x4CCCCD⟩ ∧
      Float64.toFloat32 (Float64.ofBits 0x400921FB54442D18)
        = ⟨false, Fin.ofNat 0x80, Fin.ofNat 0x490FDB⟩ ∧
      Float64.toFloat32 f100 = ⟨false, Fin.ofNat 0x85, Fin.ofNat 0x480000⟩ ∧
      Float64.toFloat32 (Float64.ofBits 0x7FEFFFFFFFFFFFFF)
        = ⟨false, Fin.ofNat 0xFF, Fin.ofNat 0⟩ := by
  refine ⟨by decide, by decide, by decide, by decide⟩

/-! ## Mutators -/

/-- C1: when some stored site has both coordinates equal (Go `==`) to those of `p`,
`AddPoint` returns the state as it was: same site list, same `updated` flag, same
viewport, same stored models. -/
theorem AddPoint_existing (s : State) (p : Vertex)
    (h : ∃ q ∈ s.points, Float64.feq p.X q.X = true ∧ Float64.feq p.Y q.Y = true) :
    AddPoint s p = s ∧
      (AddPoint s p).points = s.points ∧ (AddPoint s p).points.length = s.points.length ∧
      (AddPoint s p).updated = s.updated ∧
      (AddPoint s p).w = s.w ∧ (AddPoint s p).h = s.h ∧
      (AddPoint s p).pointsModel = s.pointsModel ∧ (AddPoint s p).linesModel = s.linesModel := by
  have hf : AddPoint.found p s.points = true := by
    rw [found_eq_true_iff]
    obtain ⟨q, hq, hx, hy⟩ := h
    exact ⟨q, hq, by simp [sameXY, hx, hy]⟩
  have e : AddPoint s p = s := by simp [AddPoint, hf]
  simp [e]

theorem AddPoint_existing_witness :
    (∃ q ∈ sampleState.points,
        Float64.feq siteA.X q.X = true ∧ Float64.feq siteA.Y q.Y = true) ∧
      AddPoint sampleState siteA = sampleState :=
  ⟨⟨siteA, by decide, by decide, by decide⟩,
    (AddPoint_existing sampleState siteA ⟨siteA, by decide, by decide, by decide⟩).1⟩

/-- C2: when no stored site has both coordinates equal (Go `==`) to those of `p`,
`AddPoint` stores the old site list followed by `p` and clears `updated`; the viewport
and the stored models stay.  The length test of `pointsEq` makes the comparison inside
`SetPoints` fail whatever the coordinates are. -/
theorem AddPoint_fresh (s : State) (p : Vertex)
    (h : ∀ q ∈ s.points, ¬ (Float64.feq p.X q.X = true ∧ Float64.feq p.Y q.Y = true)) :
    AddPoint s p = { s with points := s.points ++ [p], updated := false } ∧
      (AddPoint s p).points = s.points ++ [p] ∧
      (AddPoint s p).points.length = s.points.length + 1 ∧
      (AddPoint s p).updated = false ∧
      (AddPoint s p).w = s.w ∧ (AddPoint s p).h = s.h ∧
      (AddPoint s p).pointsModel = s.pointsModel ∧ (AddPoint s p).linesModel = s.linesModel ∧
      pointsEq (s.points ++ [p]) s.points = false := by
  have hf : AddPoint.found p s.points = false := by
    rw [found_eq_false_iff]
    intro q hq
    have := h q hq
    simpa [sameXY] using this
  have hne : pointsEq (s.points ++ [p]) s.points = false :=
    pointsEq_of_length_ne _ _ (by simp)
  have e : AddPoint s p = { s with points := s.points ++ [p], updated := false } := by
    simp [AddPoint, hf, SetPoints, hne]
  simp [e, hne]

theorem AddPoint_fresh_witness :
    (∀ q ∈ [siteP], ¬ (Float64.feq siteQ.X q.X = true ∧ Float64.feq siteQ.Y q.Y = true)) ∧
      (AddPoint ⟨f800, f600, [siteP], true, ⟨none, false⟩, ⟨none, false⟩⟩ siteQ).points
        = [siteP, siteQ] ∧
      (AddPoint ⟨f800, f600, [siteP], true, ⟨none, false⟩, ⟨none, false⟩⟩ siteQ).updated
        = false :=
  ⟨by decide,
    (AddPoint_fresh ⟨f800, f600, [siteP], true, ⟨none, false⟩, ⟨none, false⟩⟩ siteQ
      (by decide)).2.1,
    (AddPoint_fresh ⟨f800, f600, [siteP], true, ⟨none, false⟩, ⟨none, false⟩⟩ siteQ
      (by decide)).2.2.2.1⟩

/-- C4: when the new list is a permutation of the stored site list, `SetPoints` changes
nothing: sites, `updated`, viewport and both stored models are as before the call. -/
theorem SetPoints_perm (s : State) (points : List Vertex) (h : points.Perm s.points) :
    SetPoints s points = s ∧
      (SetPoints s points).points = s.points ∧ (SetPoints s points).updated = s.updated ∧
      (SetPoints s points).w = s.w ∧ (SetPoints s points).h = s.h ∧
      (SetPoints s points).pointsModel = s.pointsModel ∧
      (SetPoints s points).linesModel = s.linesModel := by
  have hp : pointsEq points s.points = true := by
    rw [pointsEq_eq_true_iff]
    exact ⟨h.length_eq, fun p hp => ⟨p, h.mem_iff.2 hp, rfl⟩⟩
  have e := SetPoints_of_pointsEq s points hp
  simp [e]

theorem SetPoints_perm_witness :
    [siteB, siteO, siteA].Perm sampleState.points ∧
      SetPoints sampleState [siteB, siteO, siteA] = sampleState :=
  ⟨by decide, (SetPoints_perm sampleState [siteB, siteO, siteA] (by decide)).1⟩

/-- C5: `SetDimensions` with both dimensions equal (Go `==`) to the stored ones returns
the state as it was; otherwise it stores the new viewport and clears `updated`, leaving
the sites and the stored models as they were. -/
theorem SetDimensions_spec (s : State) (w h : Float64) :
    ((Float64.feq s.w w = true ∧ Float64.feq s.h h = true) → SetDimensions s w h = s) ∧
      (¬ (Float64.feq s.w w = true ∧ Float64.feq s.h h = true) →
        (SetDimensions s w h).w = w ∧ (SetDimensions s w h).h = h ∧
        (SetDimensions s w h).updated = false ∧
        (SetDimensions s w h).points = s.points ∧
        (SetDimensions s w h).pointsModel = s.pointsModel ∧
        (SetDimensions s w h).linesModel = s.linesModel) := by
  constructor
  · rintro ⟨hw, hh⟩
    simp [SetDimensions, hw, hh]
  · intro hn
    have : (Float64.feq s.w w && Float64.feq s.h h) = false := by
      rw [← Bool.not_eq_true]
      simpa using hn
    simp [SetDimensions, this]

theorem SetDimensions_spec_witness :
    ((Float64.feq sampleState.w f800 = true ∧ Float64.feq sampleState.h f600 = true) ∧
        SetDimensions sampleState f800 f600 = sampleState) ∧
      (¬ (Float64.feq sampleState.w f800 = true ∧ Float64.feq sampleState.h f100 = true) ∧
        (SetDimensions sampleState f800 f100).h = f100 ∧
        (SetDimensions sampleState f800 f100).updated = false) :=
  ⟨⟨⟨by decide, by decide⟩,
      (SetDimensions_spec sampleState f800 f600).1 ⟨by decide, by decide⟩⟩,
    ⟨by decide,
      ((SetDimensions_spec sampleState f800 f100).2 (by decide)).2.1,
      ((SetDimensions_spec sampleState f800 f100).2 (by decide)).2.2.1⟩⟩

/-- C3, as stated, fails on the code.  With the one site `(100, 0)` stored and a clean
state, `SetPoints` of the list holding that site twice is given the same set of
coordinate pairs and still replaces the list and clears `updated`.  With `(100, 0)`
stored twice, `SetPoints` of `[(100, 0), (0, 100)]` is given a different set and still
changes nothing. -/
theorem SetPoints_set_equality_counterexample :
    ((∀ v, v ∈ [siteA, siteA] ↔ v ∈ [siteA]) ∧
        SetPoints ⟨f800, f600, [siteA], true, ⟨none, false⟩, ⟨none, false⟩⟩ [siteA, siteA]
          = ⟨f800, f600, [siteA, siteA], false, ⟨none, false⟩, ⟨none, false⟩⟩) ∧
      (¬ (∀ v, v ∈ [siteA, siteB] ↔ v ∈ [siteA, siteA]) ∧
        SetPoints ⟨f800, f600, [siteA, siteA], true, ⟨none, false⟩, ⟨none, false⟩⟩
            [siteA, siteB]
          = ⟨f800, f600, [siteA, siteA], true, ⟨none, false⟩, ⟨none, false⟩⟩) := by
  refine ⟨⟨?_, by decide⟩, ⟨?_, by decide⟩⟩
  · intro v; simp
  · intro h
    have hb := (h siteB).1 (by simp)
    revert hb
    decide

/-- C3, amended: `SetPoints` stores the new list and clears `updated` (viewport and
models untouched) whenever the new list has another length than the stored one, or
some stored site has a `%f:%f` key that no new site has; it changes nothing whenever
the new list has the same length and the same set of coordinate pairs as the stored
one. -/
theorem SetPoints_spec (s : State) (points : List Vertex) :
    ((points.length ≠ s.points.length ∨
          ∃ q ∈ s.points, ∀ p ∈ points, pointKey p ≠ pointKey q) →
        SetPoints s points = { s with points := points, updated := false }) ∧
      ((points.length = s.points.length ∧ ∀ v, v ∈ points ↔ v ∈ s.points) →
        SetPoints s points = s) := by
  constructor
  · intro h
    apply SetPoints_of_not_pointsEq
    rw [← Bool.not_eq_true, pointsEq_eq_true_iff]
    rintro ⟨hl, hk⟩
    rcases h with h | ⟨q, hq, hne⟩
    · exact h hl
    · obtain ⟨p, hp, hpq⟩ := hk q hq
      exact hne p hp hpq
  · rintro ⟨hl, hm⟩
    apply SetPoints_of_pointsEq
    rw [pointsEq_eq_true_iff]
    exact ⟨hl, fun p hp => ⟨p, (hm p).2 hp, rfl⟩⟩

theorem SetPoints_spec_witness :
    ((∃ q ∈ sampleState.points, ∀ p ∈ [siteO, siteA, siteP], pointKey p ≠ pointKey q) ∧
        SetPoints sampleState [siteO, siteA, siteP]
          = { sampleState with points := [siteO, siteA, siteP], updated := false }) ∧
      (([siteA, siteB, siteO].length = sampleState.points.length ∧
          ∀ v, v ∈ [siteA, siteB, siteO] ↔ v ∈ sampleState.points) ∧
        SetPoints sampleState [siteA, siteB, siteO] = sampleState) :=
  have h1 : ∃ q ∈ sampleState.points, ∀ p ∈ [siteO, siteA, siteP], pointKey p ≠ pointKey q :=
    ⟨siteB, by decide, by decide⟩
  have h2 : [siteA, siteB, siteO].length = sampleState.points.length ∧
      ∀ v, v ∈ [siteA, siteB, siteO] ↔ v ∈ sampleState.points :=
    ⟨by decide, fun v => List.Perm.mem_iff (by decide)⟩
  ⟨⟨h1, (SetPoints_spec sampleState [siteO, siteA, siteP]).1 (Or.inr h1)⟩,
    ⟨h2, (SetPoints_spec sampleState [siteA, siteB, siteO]).2 h2⟩⟩

/-- C9, evaluated on the code: the sites `(1, 0)` and `(1 + 2 ^ (-30), 0)` have different
`X` (Go `==` is false), both get the key `1.000000:0.000000`, `pointsEq` answers `true`
on them, and `SetPoints` of the second on a clean state holding the first changes
nothing. -/
theorem pointsEq_six_decimal_keys :
    Float64.feq siteP.X siteQ.X = false ∧ siteP ≠ siteQ ∧
      pointKey siteP = "1.000000:0.000000" ∧ pointKey siteQ = "1.000000:0.000000" ∧
      pointsEq [siteP] [siteQ] = true ∧ pointsEq [siteQ] [siteP] = true ∧
      SetPoints ⟨f800, f600, [siteP], true, ⟨none, false⟩, ⟨none, false⟩⟩ [siteQ]
        = ⟨f800, f600, [siteP], true, ⟨none, false⟩, ⟨none, false⟩⟩ := by
  refine ⟨by decide, by decide, by decide, by decide, by decide, by decide, by decide⟩

/-! ## Render geometry -/

theorem foldl_append_eq {α β : Type} (f : α → List β) (l : List α) (init : List β) :
    l.foldl (fun acc a => acc ++ f a) init = init ++ (l.map f).flatten := by
  induction l generalizing init with
  | nil => simp
  | cons a rest ih => simp [ih]

/-- C8: `diagramPoints` yields one vertex per cell, in cell order, and `diagramLines`
yields the two endpoints `Va`, `Vb` of every edge, in edge order; so the first has as
many vertices as there are cells, the second twice as many as there are edges, an even
number. -/
theorem geometry_cardinality (d : Diagram) :
    (diagramPoints d).length = d.Cells.length ∧
      diagramPoints d
        = d.Cells.map (fun c => ⟨c.Site.X.toFloat32, c.Site.Y.toFloat32, Float32.zero⟩) ∧
      (diagramLines d).length = 2 * d.Edges.length ∧
      diagramLines d = (d.Edges.map (fun e => [vertToVec3 e.Va, vertToVec3 e.Vb])).flatten ∧
      Even (diagramLines d).length := by
  have hp : diagramPoints d
      = d.Cells.map (fun c => ⟨c.Site.X.toFloat32, c.Site.Y.toFloat32, Float32.zero⟩) := by
    unfold diagramPoints
    rw [foldl_append_eq (fun c : Cell =>
      [(⟨c.Site.X.toFloat32, c.Site.Y.toFloat32, Float32.zero⟩ : Vec3)])]
    induction d.Cells with
    | nil => rfl
    | cons c rest ih => simpa using ih
  have hl : diagramLines d
      = (d.Edges.map (fun e => [vertToVec3 e.Va, vertToVec3 e.Vb])).flatten := by
    unfold diagramLines
    rw [foldl_append_eq (fun e : Edge => [vertToVec3 e.Va, vertToVec3 e.Vb])]
    simp
  have hlen : (diagramLines d).length = 2 * d.Edges.length := by
    rw [hl]
    induction d.Edges with
    | nil => rfl
    | cons e rest ih => simp only [List.map_cons, List.flatten_cons, List.length_append, ih,
        List.length_cons, List.length_nil]; omega
  refine ⟨by rw [hp]; simp, hp, hlen, hl, ?_⟩
  rw [hlen]
  exact even_two_mul _

/-! ## Lazy recomputation -/

theorem update_fields (cd : Engine) (s : State) :
    (update cd s).w = s.w ∧ (update cd s).h = s.h ∧
      (update cd s).points = (diagram cd s.w s.h s.points).2 ∧
      (update cd s).updated = true ∧
      (update cd s).pointsModel
        = pointCloudModel (diagramPoints (diagram cd s.w s.h s.points).1) ∧
      (update cd s).linesModel
        = linesModel (diagramLines (diagram cd s.w s.h s.points).1) := by
  simp [update]

theorem diagram_perm (cd : Engine) (w h : Float64) (sites : List Vertex) :
    (diagram cd w h sites).2.Perm sites :=
  cd.sites_perm sites _ true

theorem Render_fst (cd : Engine) (s : State) :
    (Render cd s).1 = if s.updated = true then s else update cd s := by
  unfold Render
  cases h : s.updated <;> simp

/-- C7, as stated, fails on the code: `Render` on a dirty state hands the state's own
slice to the engine, which sorts it in place by `Y`.  With the sites `(0, 100)`,
`(0, 0)`, `(0, 600)` stored in that order (neither ascending nor descending in `Y`)
the site list after `Render` is `(0, 0)`, `(0, 100)`, `(0, 600)`. -/
theorem Render_reorders_sites :
    (Render sortingEngine
        ⟨f800, f600, [siteB, siteO, siteC], false, ⟨none, false⟩, ⟨none, false⟩⟩).1.points
        = [siteO, siteB, siteC] ∧
      (Render sortingEngine
        ⟨f800, f600, [siteB, siteO, siteC], false, ⟨none, false⟩, ⟨none, false⟩⟩).1.points
        ≠ [siteB, siteO, siteC] := by
  refine ⟨by decide, by decide⟩

/-- C7, amended: `Render` keeps the viewport, leaves `updated = true`, and leaves the
same sites in the site list, possibly in another order.  From a dirty state the
stored models are those derived from the diagram computed with the sites as stored
at the call, the bounding box `(-w/2, w/2, -h/2, h/2)` of the current viewport and
`closeCells = true`, and the site list is the slice as the engine left it; from a
clean state the whole state, site order included, is as before.  The two stored
models are then drawn, points first. -/
theorem Render_spec (cd : Engine) (s : State) :
    (Render cd s).1.w = s.w ∧ (Render cd s).1.h = s.h ∧
      (Render cd s).1.points.Perm s.points ∧
      (Render cd s).1.updated = true ∧
      (s.updated = false →
        (Render cd s).1.pointsModel
          = pointCloudModel (diagramPoints
              (cd.ComputeDiagram s.points
                ⟨s.w.neg.half, s.w.half, s.h.neg.half, s.h.half⟩ true).1) ∧
        (Render cd s).1.linesModel
          = linesModel (diagramLines
              (cd.ComputeDiagram s.points
                ⟨s.w.neg.half, s.w.half, s.h.neg.half, s.h.half⟩ true).1) ∧
        (Render cd s).1.points
          = (cd.ComputeDiagram s.points
              ⟨s.w.neg.half, s.w.half, s.h.neg.half, s.h.half⟩ true).2) ∧
      (s.updated = true → (Render cd s).1 = s) ∧
      (Render cd s).2 = [(Render cd s).1.pointsModel, (Render cd s).1.linesModel] := by
  have hsnd : (Render cd s).2 = [(Render cd s).1.pointsModel, (Render cd s).1.linesModel] := rfl
  obtain ⟨hw, hh, hp, hup, hpm, hlm⟩ := update_fields cd s
  refine ⟨?_, ?_, ?_, ?_, ?_, ?_, hsnd⟩ <;> rw [Render_fst]
  · by_cases hu : s.updated = true
    · rw [if_pos hu]
    · rw [if_neg hu]; exact hw
  · by_cases hu : s.updated = true
    · rw [if_pos hu]
    · rw [if_neg hu]; exact hh
  · by_cases hu : s.updated = true
    · rw [if_pos hu]
    · rw [if_neg hu, hp]; exact diagram_perm cd s.w s.h s.points
  · by_cases hu : s.updated = true
    · rw [if_pos hu]; exact hu
    · rw [if_neg hu]; exact hup
  · intro hd
    have hu : ¬ s.updated = true := by rw [hd]; exact Bool.false_ne_true
    rw [if_neg hu]
    exact ⟨hpm, hlm, hp⟩
  · intro hu
    rw [if_pos hu]

theorem Render_spec_witness :
    ((SetPoints sampleState [siteB, siteO, siteC]).updated = false ∧
        (Render sortingEngine (SetPoints sampleState [siteB, siteO, siteC])).1.pointsModel
          = pointCloudModel (diagramPoints
              (sortingEngine.ComputeDiagram [siteB, siteO, siteC]
                ⟨f800.neg.half, f800.half, f600.neg.half, f600.half⟩ true).1) ∧
        (Render sortingEngine (SetPoints sampleState [siteB, siteO, siteC])).1.points
          = [siteO, siteB, siteC]) ∧
      (sampleState.updated = true ∧ (Render sortingEngine sampleState).1 = sampleState) :=
  ⟨⟨by decide,
      ((Render_spec sortingEngine (SetPoints sampleState [siteB, siteO, siteC])).2.2.2.2.1
        (by decide)).1,
      ((Render_spec sortingEngine (SetPoints sampleState [siteB, siteO, siteC])).2.2.2.2.1
        (by decide)).2.2⟩,
    ⟨by decide, (Render_spec sortingEngine sampleState).2.2.2.2.2.1 (by decide)⟩⟩

/-! ## Coincident sites -/

theorem AddPoint_points_pairwise (s : State) (p : Vertex)
    (hs : s.points.Pairwise (fun a b => sameXY a b = false)) :
    (AddPoint s p).points.Pairwise (fun a b => sameXY a b = false) := by
  unfold AddPoint
  by_cases hf : AddPoint.found p s.points = true
  · simpa [hf] using hs
  · have hf2 : AddPoint.found p s.points = false := by simpa using hf
    simp only [hf2, Bool.false_eq_true, if_false]
    unfold SetPoints
    by_cases he : pointsEq (s.points ++ [p]) s.points = true
    · simpa [he] using hs
    · simp only [he, Bool.false_eq_true, if_false]
      rw [List.pairwise_append]
      refine ⟨hs, List.pairwise_singleton _ _, ?_⟩
      intro a ha b hb
      rw [List.mem_singleton] at hb
      subst hb
      rw [sameXY_comm]
      exact (found_eq_false_iff b s.points).1 hf2 a ha

theorem pairwise_of_perm (l1 l2 : List Vertex) (hp : l1.Perm l2)
    (h : l2.Pairwise (fun a b => sameXY a b = false)) :
    l1.Pairwise (fun a b => sameXY a b = false) :=
  (hp.pairwise_iff (fun {x y} hxy => by rw [sameXY_comm]; exact hxy)).2 h

theorem SetDimensions_points (s : State) (w h : Float64) :
    (SetDimensions s w h).points = s.points := by
  unfold SetDimensions
  by_cases hc : (Float64.feq s.w w && Float64.feq s.h h) = true
  · simp [hc]
  · simp [hc]

theorem Render_points_perm (cd : Engine) (s : State) :
    (Render cd s).1.points.Perm s.points := by
  rw [Render_fst]
  by_cases hu : s.updated = true
  · rw [if_pos hu]
  · rw [if_neg hu, (update_fields cd s).2.2.1]
    exact diagram_perm cd s.w s.h s.points

theorem runCalls_points_pairwise (cd : Engine) (calls : List Call) :
    ∀ s : State, (∀ c ∈ calls, ∀ l, c ≠ Call.setPoints l) →
      s.points.Pairwise (fun a b => sameXY a b = false) →
      (runCalls cd s calls).points.Pairwise (fun a b => sameXY a b = false) := by
  induction calls with
  | nil => intro s _ hs; exact hs
  | cons c rest ih =>
    intro s hc hs
    have hrest : ∀ c2 ∈ rest, ∀ l, c2 ≠ Call.setPoints l :=
      fun c2 h2 => hc c2 (List.mem_cons_of_mem _ h2)
    have hstep : (Call.apply cd s c).points.Pairwise (fun a b => sameXY a b = false) := by
      cases c with
      | setPoints l => exact absurd rfl (hc (Call.setPoints l) (List.mem_cons_self _ _) l)
      | addPoint p => exact AddPoint_points_pairwise s p hs
      | setDimensions w h =>
        show (SetDimensions s w h).points.Pairwise _
        rw [SetDimensions_points]; exact hs
      | render =>
        show (Render cd s).1.points.Pairwise _
        exact pairwise_of_perm _ _ (Render_points_perm cd s) hs
    exact ih (Call.apply cd s c) hrest hstep

/-- C10: if no two stored sites have both coordinates equal (Go `==`), the same holds
after `AddPoint` of any point; hence it holds in every state reached from `New` on
pairwise distinct sites by `AddPoint`, `SetDimensions` and `Render` calls, whatever
order the engine leaves the sites in. -/
theorem no_coincident_sites :
    (∀ (s : State) (p : Vertex),
        s.points.Pairwise (fun a b => sameXY a b = false) →
        (AddPoint s p).points.Pairwise (fun a b => sameXY a b = false)) ∧
      (∀ (cd : Engine) (w h : Float64) (sites : List Vertex) (calls : List Call),
        sites.Pairwise (fun a b => sameXY a b = false) →
        (∀ c ∈ calls, ∀ l, c ≠ Call.setPoints l) →
        (runCalls cd (New cd w h sites) calls).points.Pairwise
          (fun a b => sameXY a b = false)) := by
  refine ⟨AddPoint_points_pairwise, ?_⟩
  intro cd w h sites calls hs hc
  apply runCalls_points_pairwise cd calls (New cd w h sites) hc
  have : (New cd w h sites).points = (diagram cd w h sites).2 :=
    (update_fields cd ⟨w, h, sites, false, ⟨none, false⟩, ⟨none, false⟩⟩).2.2.1
  rw [this]
  exact pairwise_of_perm _ _ (diagram_perm cd w h sites) hs

theorem no_coincident_sites_witness :
    (sampleState.points.Pairwise (fun a b => sameXY a b = false) ∧
        (AddPoint sampleState siteA).points.Pairwise (fun a b => sameXY a b = false)) ∧
      ([siteB, siteO].Pairwise (fun a b => sameXY a b = false) ∧
        (∀ c ∈ [Call.addPoint siteO, Call.render, Call.addPoint siteA,
            Call.setDimensions f800 f100], ∀ l, c ≠ Call.setPoints l) ∧
        (runCalls sortingEngine (New sortingEngine f800 f600 [siteB, siteO])
          [Call.addPoint siteO, Call.render, Call.addPoint siteA,
            Call.setDimensions f800 f100]).points.Pairwise
          (fun a b => sameXY a b = false)) :=
  have h1 : sampleState.points.Pairwise (fun a b => sameXY a b = false) := by decide
  have h2 : [siteB, siteO].Pairwise (fun a b => sameXY a b = false) := by decide
  have h3 : ∀ c ∈ [Call.addPoint siteO, Call.render, Call.addPoint siteA,
      Call.setDimensions f800 f100], ∀ l, c ≠ Call.setPoints l := by
    intro c hc l e
    subst e
    simp at hc
  ⟨⟨h1, no_coincident_sites.1 sampleState siteA h1⟩,
    ⟨h2, h3, no_coincident_sites.2 sortingEngine f800 f600 [siteB, siteO] _ h2 h3⟩⟩

end Voronoi
